import Mathlib

/-!
Verification of the Apple public-key cache in `cryptoutil`
(`GetApplePublicKey`, `FetchApplePublicKeys`, `VerifyAppleToken`).

The Go source is embedded shallowly:
* the cache state (`keyCache`) becomes an explicit record threaded through
  the operations;
* the HTTP world that `FetchApplePublicKeys` interacts with (request
  construction, `http.DefaultClient.Do`, status code, body read, JWK parse)
  becomes an explicit `FetchEnv` record describing the outcome of each stage;
* Go `time.Time` becomes a `Nat` timestamp where `0` plays the role of the
  zero `time.Time` (`fetchTime.IsZero()`), and `time.Since t < KeyCacheTTL`
  becomes truncated subtraction `now - t < KeyCacheTTL` (both treat a
  timestamp in the future as within the TTL);
* the read-locked fast path and the write-locked slow path of
  `GetApplePublicKey` are modelled as atomic sections; the write-locked
  section is a separate function `slowPathLocked` so that interleavings of
  several callers (which serialise on the write lock) can be modelled as
  sequential executions of that section on the evolving shared state;
* every operation additionally returns the number of outbound fetch calls
  (invocations of `FetchApplePublicKeys`) it performed, mirroring the
  fetch-call counters used by the repository's testable properties.
-/

deriving instance DecidableEq for Except

/-- An RSA public key (`*rsa.PublicKey`): modulus and exponent. -/
structure RSAPublicKey where
  n : Nat
  e : Nat
  deriving DecidableEq, Repr

/-- Error classes of the `cryptoutil` package, as distinguished by the
sentinel errors the Go code wraps with `%w`:
`publicKeyNotFound` is `ErrPublicKeyNotFound`, `fetchKeys` is `ErrFetchKeys`,
`decodeKey` is `ErrDecodeKey`.  `invalidArgument` and `contextCanceled` are
classes that the spec speaks about; they are included so that statements can
say that the code does, or does not, produce them. -/
inductive ErrClass
  | publicKeyNotFound
  | fetchKeys
  | decodeKey
  | invalidArgument
  | contextCanceled
  deriving DecidableEq, Repr

/-- The cache state `keyCache`: `keys` is the Go map `kid -> *rsa.PublicKey`
as an association list with unique keys, `fetchTime` is the timestamp of the
last successful refresh, with `0` for the zero `time.Time` (never fetched).
The `sync.RWMutex` is represented by the atomicity of the model's steps. -/
structure KeyCache where
  keys : List (String × RSAPublicKey)
  fetchTime : Nat
  deriving DecidableEq, Repr

/-- TTL of the cache, `KeyCacheTTL = 24 * time.Hour`, in seconds. -/
def KeyCacheTTL : Nat := 24 * 60 * 60

/-- Go map read `m[kid]`. -/
def lookupKey (m : List (String × RSAPublicKey)) (kid : String) :
    Option RSAPublicKey :=
  match m with
  | [] => none
  | (kid', k) :: rest => if kid' = kid then some k else lookupKey rest kid

/-- Go map write `m[kid] = k` (replace an existing binding, else append). -/
def insertKey (m : List (String × RSAPublicKey)) (kid : String)
    (k : RSAPublicKey) : List (String × RSAPublicKey) :=
  match m with
  | [] => [(kid, k)]
  | (kid', k') :: rest =>
      if kid' = kid then (kid, k) :: rest else (kid', k') :: insertKey rest kid k

/-- The cache-validity test that `GetApplePublicKey` performs twice:
`!fetchTime.IsZero() && time.Since(fetchTime) < KeyCacheTTL`. -/
def cacheValid (cache : KeyCache) (now : Nat) : Bool :=
  cache.fetchTime ≠ 0 && now - cache.fetchTime < KeyCacheTTL

/-- The raw key produced by `jwk.PublicRawKeyOf`: either an RSA public key
(so the type assertion `rawKey.(*rsa.PublicKey)` succeeds) or a value of
some other type (the assertion fails and the record is skipped with a
warning). -/
inductive RawKey
  | rsa (k : RSAPublicKey)
  | other
  deriving DecidableEq, Repr

/-- One record of the parsed JWK set, as `FetchApplePublicKeys` inspects it:
`keyOk` is whether `keySet.Key(i)` succeeded, `kid` is the result of
`key.Get("kid", &kid)` (`none` when `Get` errors), `keyType` is
`key.KeyType()`, and `rawKey` is the result of `jwk.PublicRawKeyOf(key)`
(`none` when the conversion errors). -/
structure JWKRecord where
  keyOk : Bool
  kid : Option String
  keyType : String
  rawKey : Option RawKey
  deriving DecidableEq, Repr

/-- The valid-key extraction applied to a single record: mirrors the body of
the `for` loop in `FetchApplePublicKeys`, which `continue`s past records
whose `keySet.Key` failed, whose `kid` is missing or empty, whose key type
is not RSA, or whose conversion to a native `*rsa.PublicKey` failed. -/
def recordValidKey (r : JWKRecord) : Option (String × RSAPublicKey) :=
  if ¬ r.keyOk then none
  else
    match r.kid with
    | none => none
    | some kid =>
        if kid = "" then none
        else if r.keyType ≠ "RSA" then none
        else
          match r.rawKey with
          | none => none
          | some RawKey.other => none
          | some (RawKey.rsa k) => some (kid, k)

/-- The whole extraction loop of `FetchApplePublicKeys`: fold the records
into the `keys` map, skipping invalid ones. -/
def extractKeys (records : List JWKRecord) : List (String × RSAPublicKey) :=
  records.foldl
    (fun m r =>
      match recordValidKey r with
      | none => m
      | some (kid, k) => insertKey m kid k)
    []

/-- Outcome of the body-handling stages after `http.DefaultClient.Do`
succeeded: reading the body may fail (`io.ReadAll` error), parsing may fail
(`jwk.Parse` error), or the parse yields a list of key records. -/
inductive BodyOutcome
  | readErr
  | parseErr
  | parsed (records : List JWKRecord)
  deriving DecidableEq, Repr

/-- Outcome of `http.DefaultClient.Do(req)`: either an error — with a flag
recording whether that error is a context-cancellation error from the
caller's context — or a response with a status code and a body. -/
inductive DoOutcome
  | doErr (isCancellation : Bool)
  | doOk (status : Nat) (body : BodyOutcome)
  deriving DecidableEq, Repr

/-- The HTTP world one call to `FetchApplePublicKeys` runs against:
whether `http.NewRequestWithContext` succeeds, and what
`http.DefaultClient.Do` then produces. -/
structure FetchEnv where
  newRequestOk : Bool
  outcome : DoOutcome
  deriving DecidableEq, Repr

/-- Shallow embedding of `FetchApplePublicKeys`: request construction
failure, network failure, a non-`http.StatusOK` status, and a body-read
failure are all wrapped with `ErrFetchKeys`; a `jwk.Parse` failure is
wrapped with `ErrDecodeKey`; an extraction that yields zero keys is wrapped
with `ErrPublicKeyNotFound`; otherwise the extracted map is returned. -/
def FetchApplePublicKeys (env : FetchEnv) :
    Except ErrClass (List (String × RSAPublicKey)) :=
  if ¬ env.newRequestOk then Except.error ErrClass.fetchKeys
  else
    match env.outcome with
    | DoOutcome.doErr _ => Except.error ErrClass.fetchKeys
    | DoOutcome.doOk status body =>
        if status ≠ 200 then Except.error ErrClass.fetchKeys
        else
          match body with
          | BodyOutcome.readErr => Except.error ErrClass.fetchKeys
          | BodyOutcome.parseErr => Except.error ErrClass.decodeKey
          | BodyOutcome.parsed records =>
              let keys := extractKeys records
              if keys = [] then Except.error ErrClass.publicKeyNotFound
              else Except.ok keys

/-- The write-locked section of `GetApplePublicKey` (everything between
`mutex.Lock()` and `mutex.Unlock()`): re-check validity (the double check),
refresh if still stale — returning the refresh error with the cache
untouched on failure, installing `keys` and `fetchTime` together on success
— then look the kid up in the current map.  The third component counts the
outbound fetch calls performed (0 or 1). -/
def slowPathLocked (env : FetchEnv) (now : Nat) (kid : String)
    (cache : KeyCache) :
    Except ErrClass RSAPublicKey × KeyCache × Nat :=
  if cacheValid cache now then
    match lookupKey cache.keys kid with
    | some k => (Except.ok k, cache, 0)
    | none => (Except.error ErrClass.publicKeyNotFound, cache, 0)
  else
    match FetchApplePublicKeys env with
    | Except.error e => (Except.error e, cache, 1)
    | Except.ok newKeys =>
        let cache' : KeyCache := { keys := newKeys, fetchTime := now }
        match lookupKey newKeys kid with
        | some k => (Except.ok k, cache', 1)
        | none => (Except.error ErrClass.publicKeyNotFound, cache', 1)

/-- Shallow embedding of `GetApplePublicKey`: reject the empty kid (wrapped
with `ErrPublicKeyNotFound` in the source: "key ID (kid) is empty"), then
try the read-locked fast path (present and cache valid), else run the
write-locked slow path.  Returns the result, the post-state of the cache,
and the number of outbound fetch calls. -/
def GetApplePublicKey (env : FetchEnv) (now : Nat) (kid : String)
    (cache : KeyCache) :
    Except ErrClass RSAPublicKey × KeyCache × Nat :=
  if kid = "" then (Except.error ErrClass.publicKeyNotFound, cache, 0)
  else
    match lookupKey cache.keys kid, cacheValid cache now with
    | some k, true => (Except.ok k, cache, 0)
    | _, _ => slowPathLocked env now kid cache

/-- A sequence of callers that have all already observed a stale or absent
cache under the read lock and entered the slow path: the write lock
serialises their locked sections, so the shared cache evolves by running
`slowPathLocked` once per caller, in lock-acquisition order.  Each caller is
a pair `(now, kid)`: its lock-acquisition time and the kid it resolves.
Returns the final cache and the total number of outbound fetch calls. -/
def runSlowPathCallers (env : FetchEnv) (callers : List (Nat × String))
    (cache : KeyCache) : KeyCache × Nat :=
  match callers with
  | [] => (cache, 0)
  | (now, kid) :: rest =>
      let r := slowPathLocked env now kid cache
      let rec' := runSlowPathCallers env rest r.2.1
      (rec'.1, r.2.2 + rec'.2)

/-- The inner error produced by the key callback or the verification stages
of `jwt.ParseWithClaims` inside `VerifyAppleToken`:
`invalidRSAMethod` is the `ErrInvalidRSAMethod` rejection of a non-RSA
signing method, `missingKID` is `ErrMissingKID`, `getKeyFailed` wraps the
error returned by `GetApplePublicKey`, `malformed` stands for a structural
parse failure of the compact token, `signatureInvalid` and `claimsInvalid`
for the library's signature and registered-claims validation failures. -/
inductive KeyfuncErr
  | invalidRSAMethod
  | missingKID
  | getKeyFailed (e : ErrClass)
  | malformed
  | signatureInvalid
  | claimsInvalid
  deriving DecidableEq, Repr

/-- Error classes of `VerifyAppleToken`: every `jwt.ParseWithClaims` error
is wrapped with the `ErrAppleVerification` prefix; `invalidToken` is the
`ErrInvalidToken` branch behind the `token.Valid` check. -/
inductive TokenErr
  | appleVerification (inner : KeyfuncErr)
  | invalidToken
  deriving DecidableEq, Repr

/-- The untrusted credential as `jwt.ParseWithClaims` sees it:
`wellFormed` is whether the compact JWS parses structurally; `methodIsRSA`
is whether `token.Method` is a `*jwt.SigningMethodRSA`; `kid` is
`token.Header["kid"]` as a string (`none` when absent or not a string);
`signerKey` is the RSA public key the signature actually verifies under
(`none` when it verifies under no key); `claimsOk` is the registered-claims
validation (expiry, not-before); `sub` is the subject claim. -/
structure TokenParse where
  wellFormed : Bool
  methodIsRSA : Bool
  kid : Option String
  signerKey : Option RSAPublicKey
  claimsOk : Bool
  sub : String
  deriving DecidableEq, Repr

/-- Shallow embedding of `VerifyAppleToken`: parse the token; inside the key
callback reject a non-RSA signing method first, then a missing kid, then
resolve the kid via `GetApplePublicKey`; verify the signature under the
resolved key and validate the registered claims; on success return the
subject.  Returns the result, the cache post-state, and the number of
outbound fetch calls performed on the way. -/
def VerifyAppleToken (env : FetchEnv) (now : Nat) (tok : TokenParse)
    (cache : KeyCache) : Except TokenErr String × KeyCache × Nat :=
  if ¬ tok.wellFormed then
    (Except.error (TokenErr.appleVerification KeyfuncErr.malformed), cache, 0)
  else if ¬ tok.methodIsRSA then
    (Except.error (TokenErr.appleVerification KeyfuncErr.invalidRSAMethod),
      cache, 0)
  else
    match tok.kid with
    | none =>
        (Except.error (TokenErr.appleVerification KeyfuncErr.missingKID),
          cache, 0)
    | some kid =>
        match GetApplePublicKey env now kid cache with
        | (Except.error e, cache', n) =>
            (Except.error
              (TokenErr.appleVerification (KeyfuncErr.getKeyFailed e)),
              cache', n)
        | (Except.ok k, cache', n) =>
            if tok.signerKey ≠ some k then
              (Except.error
                (TokenErr.appleVerification KeyfuncErr.signatureInvalid),
                cache', n)
            else if ¬ tok.claimsOk then
              (Except.error
                (TokenErr.appleVerification KeyfuncErr.claimsInvalid),
                cache', n)
            else (Except.ok tok.sub, cache', n)

example :
    GetApplePublicKey ⟨true, DoOutcome.doErr false⟩ 5 "a"
      ⟨[("a", ⟨33, 7⟩)], 1⟩ = (Except.ok ⟨33, 7⟩, ⟨[("a", ⟨33, 7⟩)], 1⟩, 0) := by
  decide

example :
    GetApplePublicKey ⟨true, DoOutcome.doErr false⟩ 5 ""
      ⟨[("a", ⟨33, 7⟩)], 1⟩ =
      (Except.error ErrClass.publicKeyNotFound, ⟨[("a", ⟨33, 7⟩)], 1⟩, 0) := by
  decide

example :
    FetchApplePublicKeys
      ⟨true, DoOutcome.doOk 200 (BodyOutcome.parsed
        [⟨true, some "k1", "RSA", some (RawKey.rsa ⟨5, 3⟩)⟩,
         ⟨true, none, "RSA", some (RawKey.rsa ⟨9, 3⟩)⟩])⟩ =
      Except.ok [("k1", ⟨5, 3⟩)] := by
  decide

/-! ## Helper lemmas -/

theorem slowPathLocked_fresh (env : FetchEnv) (now : Nat) (kid : String)
    (cache : KeyCache) (hvalid : cacheValid cache now = true) :
    slowPathLocked env now kid cache =
      ((match lookupKey cache.keys kid with
        | some k => Except.ok k
        | none => Except.error ErrClass.publicKeyNotFound), cache, 0) := by
  cases h : lookupKey cache.keys kid <;> simp [slowPathLocked, hvalid, h]

theorem slowPathLocked_cache_post (env : FetchEnv) (now : Nat) (kid : String)
    (cache : KeyCache) :
    (slowPathLocked env now kid cache).2.1 = cache ∨
      ∃ newKeys, FetchApplePublicKeys env = Except.ok newKeys ∧
        (slowPathLocked env now kid cache).2.1 =
          { keys := newKeys, fetchTime := now } := by
  unfold slowPathLocked
  by_cases hvalid : cacheValid cache now = true
  · cases h : lookupKey cache.keys kid <;> simp [hvalid, h]
  · simp only [Bool.not_eq_true] at hvalid
    cases hf : FetchApplePublicKeys env with
    | error e => simp [hvalid, hf]
    | ok newKeys =>
        right
        refine ⟨newKeys, rfl, ?_⟩
        cases h : lookupKey newKeys kid <;> simp [hvalid, hf, h]

/-! ## Claim theorems -/

/-- C1: for every non-empty kid present in the cache's entries and every
cache state whose `fetchTime` is non-zero and less than the TTL old,
`GetApplePublicKey` returns the cached key with the cache unchanged and no
outbound fetch; consequently every repeated resolve within the TTL window
(any environment, any time still inside the window) returns the identical
key, again with zero fetches, so the fetch counter stays where it was. -/
theorem getApplePublicKey_fresh_hit (env : FetchEnv) (now : Nat)
    (kid : String) (cache : KeyCache) (k : RSAPublicKey)
    (hkid : kid ≠ "")
    (hmem : lookupKey cache.keys kid = some k)
    (hnz : cache.fetchTime ≠ 0)
    (hfresh : now - cache.fetchTime < KeyCacheTTL) :
    GetApplePublicKey env now kid cache = (Except.ok k, cache, 0) ∧
      ∀ env' : FetchEnv, ∀ now' : Nat, now' - cache.fetchTime < KeyCacheTTL →
        GetApplePublicKey env' now' kid cache = (Except.ok k, cache, 0) := by
  constructor
  · simp [GetApplePublicKey, cacheValid, hkid, hmem, hnz, hfresh]
  · intro env' now' hfresh'
    simp [GetApplePublicKey, cacheValid, hkid, hmem, hnz, hfresh']

theorem getApplePublicKey_fresh_hit_witness :
    GetApplePublicKey ⟨true, DoOutcome.doErr false⟩ 100 "kid1"
        ⟨[("kid1", ⟨77, 3⟩)], 10⟩ =
      (Except.ok ⟨77, 3⟩, ⟨[("kid1", ⟨77, 3⟩)], 10⟩, 0) ∧
    GetApplePublicKey ⟨false, DoOutcome.doErr true⟩ 500 "kid1"
        ⟨[("kid1", ⟨77, 3⟩)], 10⟩ =
      (Except.ok ⟨77, 3⟩, ⟨[("kid1", ⟨77, 3⟩)], 10⟩, 0) := by
  have h := getApplePublicKey_fresh_hit ⟨true, DoOutcome.doErr false⟩ 100
    "kid1" ⟨[("kid1", ⟨77, 3⟩)], 10⟩ ⟨77, 3⟩
    (by decide) (by decide) (by decide) (by decide)
  exact ⟨h.1, h.2 ⟨false, DoOutcome.doErr true⟩ 500 (by decide)⟩

/-- C2: whenever the slow path actually refreshes (non-empty kid, cache
stale at `now`) and the refresh fails — with any error class, covering
`ErrFetchKeys`, `ErrDecodeKey`, and the zero-usable-keys
`ErrPublicKeyNotFound` — `GetApplePublicKey` returns exactly that error and
the cache keeps both its entries and its `fetchTime` unchanged, so stale
entries remain in place. -/
theorem getApplePublicKey_refresh_failure (env : FetchEnv) (now : Nat)
    (kid : String) (cache : KeyCache) (e : ErrClass)
    (hkid : kid ≠ "")
    (hstale : cacheValid cache now = false)
    (hfail : FetchApplePublicKeys env = Except.error e) :
    GetApplePublicKey env now kid cache = (Except.error e, cache, 1) := by
  cases h : lookupKey cache.keys kid <;>
    simp [GetApplePublicKey, slowPathLocked, hkid, hstale, hfail, h]

theorem getApplePublicKey_refresh_failure_witness :
    GetApplePublicKey ⟨true, DoOutcome.doOk 500 BodyOutcome.readErr⟩ 999999
        "kid1" ⟨[("kid1", ⟨77, 3⟩)], 10⟩ =
      (Except.error ErrClass.fetchKeys, ⟨[("kid1", ⟨77, 3⟩)], 10⟩, 1) :=
  getApplePublicKey_refresh_failure ⟨true, DoOutcome.doOk 500 BodyOutcome.readErr⟩
    999999 "kid1" ⟨[("kid1", ⟨77, 3⟩)], 10⟩ ErrClass.fetchKeys
    (by decide) (by decide) (by decide)

/-- C5 (counterexample): the claim says `resolve("")` fails with the
`InvalidArgument` class, a caller-error class distinct from `NotFound`.  At
a concrete input the code returns an error wrapping `ErrPublicKeyNotFound`
(the `NotFound` class), which is not the `InvalidArgument` class. -/
theorem getApplePublicKey_empty_kid_counterexample :
    (GetApplePublicKey ⟨true, DoOutcome.doErr false⟩ 1 "" ⟨[], 0⟩).1 =
      Except.error ErrClass.publicKeyNotFound ∧
    (GetApplePublicKey ⟨true, DoOutcome.doErr false⟩ 1 "" ⟨[], 0⟩).1 ≠
      Except.error ErrClass.invalidArgument := by
  decide

/-- C5 (amended): for the empty identifier, `GetApplePublicKey` always
fails immediately with an error of the `NotFound` class
(`ErrPublicKeyNotFound`, detail "key ID (kid) is empty"), leaves the cache
unchanged, and performs zero outbound fetches, regardless of cache state or
environment. -/
theorem getApplePublicKey_empty_kid (env : FetchEnv) (now : Nat)
    (cache : KeyCache) :
    GetApplePublicKey env now "" cache =
      (Except.error ErrClass.publicKeyNotFound, cache, 0) := by
  simp [GetApplePublicKey]

/-- C6 (counterexample): the claim says that when the calling context is
canceled before the 10-second timeout, resolve fails with a
context-cancellation error distinct from (not wrapped as) the `FetchFailed`
class.  In the code every `http.DefaultClient.Do` error — the cancellation
of the inbound context included — is wrapped with `%w` around
`ErrFetchKeys`, so at a concrete canceled call the resulting error class is
`fetchKeys`, which is not the cancellation class. -/
theorem getApplePublicKey_cancellation_counterexample :
    (GetApplePublicKey ⟨true, DoOutcome.doErr true⟩ 5 "kid1" ⟨[], 0⟩).1 =
      Except.error ErrClass.fetchKeys ∧
    ErrClass.fetchKeys ≠ ErrClass.contextCanceled := by
  decide

/-- C6 (amended): when the calling context is canceled during the network
call (so `http.DefaultClient.Do` returns a cancellation error) and the slow
path actually refreshes, `GetApplePublicKey` fails with the `FetchFailed`
class (`ErrFetchKeys` wrapping the transport error), not with a distinct
context-cancellation class, and the cache is left unchanged. -/
theorem getApplePublicKey_cancellation (env : FetchEnv) (now : Nat)
    (kid : String) (cache : KeyCache)
    (hkid : kid ≠ "")
    (hstale : cacheValid cache now = false)
    (hcancel : env.outcome = DoOutcome.doErr true) :
    GetApplePublicKey env now kid cache =
      (Except.error ErrClass.fetchKeys, cache, 1) := by
  have hfail : FetchApplePublicKeys env = Except.error ErrClass.fetchKeys := by
    cases hreq : env.newRequestOk <;> simp [FetchApplePublicKeys, hreq, hcancel]
  cases h : lookupKey cache.keys kid <;>
    simp [GetApplePublicKey, slowPathLocked, hkid, hstale, hfail, h]

theorem getApplePublicKey_cancellation_witness :
    GetApplePublicKey ⟨true, DoOutcome.doErr true⟩ 42 "kid9" ⟨[("x", ⟨5, 3⟩)], 0⟩ =
      (Except.error ErrClass.fetchKeys, ⟨[("x", ⟨5, 3⟩)], 0⟩, 1) :=
  getApplePublicKey_cancellation ⟨true, DoOutcome.doErr true⟩ 42 "kid9"
    ⟨[("x", ⟨5, 3⟩)], 0⟩ (by decide) (by decide) (by decide)

/-- C10: for every non-empty kid absent from the entries of a fresh cache
(`fetchTime` non-zero and less than the TTL old), `GetApplePublicKey` fails
with the `NotFound` class and performs zero outbound fetches, leaving the
cache unchanged: the double check in the slow path re-tests only TTL
staleness, never the missing identifier, so no refresh happens — whatever
keys the environment would serve (the quantified `env` may well contain the
kid) stay unreachable until the TTL window expires. -/
theorem getApplePublicKey_fresh_miss (env : FetchEnv) (now : Nat)
    (kid : String) (cache : KeyCache)
    (hkid : kid ≠ "")
    (hmem : lookupKey cache.keys kid = none)
    (hnz : cache.fetchTime ≠ 0)
    (hfresh : now - cache.fetchTime < KeyCacheTTL) :
    GetApplePublicKey env now kid cache =
      (Except.error ErrClass.publicKeyNotFound, cache, 0) := by
  have hvalid : cacheValid cache now = true := by
    simp [cacheValid, hnz, hfresh]
  simp [GetApplePublicKey, slowPathLocked, hkid, hmem, hvalid]

theorem getApplePublicKey_fresh_miss_witness :
    GetApplePublicKey
        ⟨true, DoOutcome.doOk 200 (BodyOutcome.parsed
          [⟨true, some "rotated", "RSA", some (RawKey.rsa ⟨11, 3⟩)⟩])⟩
        100 "rotated" ⟨[("old", ⟨77, 3⟩)], 10⟩ =
      (Except.error ErrClass.publicKeyNotFound, ⟨[("old", ⟨77, 3⟩)], 10⟩, 0) :=
  getApplePublicKey_fresh_miss
    ⟨true, DoOutcome.doOk 200 (BodyOutcome.parsed
      [⟨true, some "rotated", "RSA", some (RawKey.rsa ⟨11, 3⟩)⟩])⟩
    100 "rotated" ⟨[("old", ⟨77, 3⟩)], 10⟩
    (by decide) (by decide) (by decide) (by decide)

theorem recordValidKey_some_shape (r : JWKRecord) (kid : String)
    (k : RSAPublicKey) (h : recordValidKey r = some (kid, k)) :
    r.keyOk = true ∧ r.kid = some kid ∧ kid ≠ "" ∧ r.keyType = "RSA" ∧
      r.rawKey = some (RawKey.rsa k) := by
  unfold recordValidKey at h
  by_cases hok : r.keyOk = true
  · rw [if_neg (by simp [hok])] at h
    cases hkid : r.kid with
    | none => rw [hkid] at h; exact absurd h (by simp)
    | some kid' =>
      rw [hkid] at h
      dsimp only at h
      by_cases he : kid' = ""
      · rw [if_pos he] at h; exact absurd h (by simp)
      · rw [if_neg he] at h
        by_cases ht : r.keyType = "RSA"
        · rw [if_neg (by simp [ht])] at h
          cases hraw : r.rawKey with
          | none => rw [hraw] at h; exact absurd h (by simp)
          | some rk =>
            rw [hraw] at h
            cases rk with
            | other => exact absurd h (by simp)
            | rsa k' =>
              simp only [Option.some.injEq, Prod.mk.injEq] at h
              obtain ⟨h1, h2⟩ := h
              subst h1; subst h2
              exact ⟨hok, rfl, he, ht, rfl⟩
        · rw [if_pos (by simp [ht])] at h; exact absurd h (by simp)
  · rw [if_pos (by simp [hok])] at h; exact absurd h (by simp)

theorem recordValidKey_skip (r : JWKRecord)
    (hcond : r.kid = none ∨ r.kid = some "" ∨ r.keyType ≠ "RSA" ∨
      ∀ k, r.rawKey ≠ some (RawKey.rsa k)) :
    recordValidKey r = none := by
  cases hr : recordValidKey r with
  | none => rfl
  | some p =>
    obtain ⟨kid, k⟩ := p
    have hs := recordValidKey_some_shape r kid k hr
    rcases hcond with h | h | h | h
    · rw [h] at hs; exact absurd hs.2.1 (by simp)
    · rw [h] at hs
      have : kid = "" := by
        have := hs.2.1
        simpa using this.symm
      exact absurd this hs.2.2.1
    · exact absurd hs.2.2.2.1 h
    · exact absurd hs.2.2.2.2 (h k)

theorem extractKeys_skip_middle (pre post : List JWKRecord) (r : JWKRecord)
    (hr : recordValidKey r = none) :
    extractKeys (pre ++ r :: post) = extractKeys (pre ++ post) := by
  simp [extractKeys, List.foldl_append, List.foldl_cons, hr]

theorem extractKeys_good_bad (g b : JWKRecord) (kid : String)
    (k : RSAPublicKey) (hg : recordValidKey g = some (kid, k))
    (hb : recordValidKey b = none) :
    extractKeys [g, b] = [(kid, k)] := by
  simp [extractKeys, List.foldl_cons, hg, hb, insertKey]

/-- C3: on a successfully fetched and parsed key-set document, the refresh
builds its result by skipping every record whose identifier is missing (or
empty), whose key type is not RSA, or that fails conversion to a native RSA
key (skipped records contribute nothing to the extraction), and it fails
with the `NotFound` class if and only if zero valid keys were extracted
after this filtering; in particular a document with one well-formed RSA key
and one malformed record yields exactly the one well-formed entry. -/
theorem fetchApplePublicKeys_filtering (env : FetchEnv)
    (records : List JWKRecord)
    (hreq : env.newRequestOk = true)
    (hout : env.outcome = DoOutcome.doOk 200 (BodyOutcome.parsed records)) :
    (FetchApplePublicKeys env = Except.error ErrClass.publicKeyNotFound ↔
      extractKeys records = []) ∧
    (extractKeys records ≠ [] →
      FetchApplePublicKeys env = Except.ok (extractKeys records)) ∧
    (∀ r : JWKRecord, (r.kid = none ∨ r.kid = some "" ∨ r.keyType ≠ "RSA" ∨
        ∀ k, r.rawKey ≠ some (RawKey.rsa k)) → recordValidKey r = none) ∧
    (∀ pre post : List JWKRecord, ∀ r : JWKRecord, recordValidKey r = none →
      extractKeys (pre ++ r :: post) = extractKeys (pre ++ post)) ∧
    (∀ g b : JWKRecord, ∀ kid : String, ∀ k : RSAPublicKey,
      recordValidKey g = some (kid, k) → recordValidKey b = none →
      extractKeys [g, b] = [(kid, k)]) := by
  refine ⟨?_, ?_, recordValidKey_skip, extractKeys_skip_middle,
    fun g b kid k hg hb => extractKeys_good_bad g b kid k hg hb⟩
  · by_cases he : extractKeys records = [] <;>
      simp [FetchApplePublicKeys, hreq, hout, he]
  · intro he
    simp [FetchApplePublicKeys, hreq, hout, he]

theorem fetchApplePublicKeys_filtering_witness :
    FetchApplePublicKeys
        ⟨true, DoOutcome.doOk 200 (BodyOutcome.parsed
          [⟨true, some "good", "RSA", some (RawKey.rsa ⟨221, 17⟩)⟩,
           ⟨true, none, "RSA", some (RawKey.rsa ⟨9, 3⟩)⟩])⟩ =
      Except.ok [("good", ⟨221, 17⟩)] := by
  have h := fetchApplePublicKeys_filtering
    ⟨true, DoOutcome.doOk 200 (BodyOutcome.parsed
      [⟨true, some "good", "RSA", some (RawKey.rsa ⟨221, 17⟩)⟩,
       ⟨true, none, "RSA", some (RawKey.rsa ⟨9, 3⟩)⟩])⟩
    [⟨true, some "good", "RSA", some (RawKey.rsa ⟨221, 17⟩)⟩,
     ⟨true, none, "RSA", some (RawKey.rsa ⟨9, 3⟩)⟩]
    (by decide) rfl
  have h2 := h.2.1 (by decide)
  rw [h2]
  decide

/-- C4: refresh fails with the `FetchFailed` class exactly when request
construction fails, the network call fails, the response status is not the
success status 200, or reading the response body fails; and it fails with
the `DecodeFailed` class exactly when the body was fetched and read but
cannot be parsed as a key-set document.  The two classes are distinct and
each stage maps to its stated class. -/
theorem fetchApplePublicKeys_error_classes (env : FetchEnv) :
    (FetchApplePublicKeys env = Except.error ErrClass.fetchKeys ↔
      env.newRequestOk = false ∨
      (∃ c, env.outcome = DoOutcome.doErr c) ∨
      (∃ s b, env.outcome = DoOutcome.doOk s b ∧ s ≠ 200) ∨
      env.outcome = DoOutcome.doOk 200 BodyOutcome.readErr) ∧
    (FetchApplePublicKeys env = Except.error ErrClass.decodeKey ↔
      env.newRequestOk = true ∧
        env.outcome = DoOutcome.doOk 200 BodyOutcome.parseErr) := by
  rcases env with ⟨reqOk, outcome⟩
  cases reqOk
  · simp [FetchApplePublicKeys]
  · rcases outcome with c | ⟨s, body⟩
    · simp [FetchApplePublicKeys]
    · by_cases hs : s = 200
      · subst hs
        rcases body with _ | _ | records
        · simp [FetchApplePublicKeys]
        · simp [FetchApplePublicKeys]
        · by_cases he : extractKeys records = [] <;>
            simp [FetchApplePublicKeys, he]
      · simp [FetchApplePublicKeys, hs]

/-- C7: a well-formed credential whose header declares a signing method
outside the RSA family is rejected with the `InvalidAlgorithm` class
(`ErrInvalidRSAMethod`, wrapped in `ErrAppleVerification`) before any key
resolution: the cache is untouched and zero outbound fetches happen, for
every environment and every cache state (the check is independent of cache
health). -/
theorem verifyAppleToken_non_rsa_method (env : FetchEnv) (now : Nat)
    (tok : TokenParse) (cache : KeyCache)
    (hwf : tok.wellFormed = true)
    (halg : tok.methodIsRSA = false) :
    VerifyAppleToken env now tok cache =
      (Except.error (TokenErr.appleVerification KeyfuncErr.invalidRSAMethod),
        cache, 0) := by
  simp [VerifyAppleToken, hwf, halg]

theorem verifyAppleToken_non_rsa_method_witness :
    VerifyAppleToken ⟨true, DoOutcome.doErr false⟩ 7
        ⟨true, false, some "kid1", some ⟨5, 3⟩, true, "user"⟩ ⟨[], 0⟩ =
      (Except.error (TokenErr.appleVerification KeyfuncErr.invalidRSAMethod),
        ⟨[], 0⟩, 0) :=
  verifyAppleToken_non_rsa_method ⟨true, DoOutcome.doErr false⟩ 7
    ⟨true, false, some "kid1", some ⟨5, 3⟩, true, "user"⟩ ⟨[], 0⟩
    (by decide) (by decide)

/-- C8: every operation on the cache either leaves the pair
(`keys`, `fetchTime`) exactly unchanged or replaces both together in the
single successful-refresh installation `{ keys := newKeys, fetchTime := now }`
— for `GetApplePublicKey` with every kid and for `VerifyAppleToken` with
every credential, so no observable post-state pairs entries with a
`fetchTime` they were not installed with. -/
theorem cache_update_atomicity (env : FetchEnv) (now : Nat)
    (cache : KeyCache) :
    (∀ kid : String, (GetApplePublicKey env now kid cache).2.1 = cache ∨
      ∃ newKeys, FetchApplePublicKeys env = Except.ok newKeys ∧
        (GetApplePublicKey env now kid cache).2.1 =
          { keys := newKeys, fetchTime := now }) ∧
    (∀ tok : TokenParse, (VerifyAppleToken env now tok cache).2.1 = cache ∨
      ∃ newKeys, FetchApplePublicKeys env = Except.ok newKeys ∧
        (VerifyAppleToken env now tok cache).2.1 =
          { keys := newKeys, fetchTime := now }) := by
  have hget : ∀ kid : String,
      (GetApplePublicKey env now kid cache).2.1 = cache ∨
      ∃ newKeys, FetchApplePublicKeys env = Except.ok newKeys ∧
        (GetApplePublicKey env now kid cache).2.1 =
          { keys := newKeys, fetchTime := now } := by
    intro kid
    unfold GetApplePublicKey
    by_cases hkid : kid = ""
    · simp [hkid]
    · rw [if_neg hkid]
      rcases hl : lookupKey cache.keys kid with _ | k <;>
        cases hv : cacheValid cache now
      · exact slowPathLocked_cache_post env now kid cache
      · exact slowPathLocked_cache_post env now kid cache
      · exact slowPathLocked_cache_post env now kid cache
      · simp
  refine ⟨hget, ?_⟩
  intro tok
  rcases tok with ⟨wf, isRSA, kid?, signer, claims, sub⟩
  cases wf
  · simp [VerifyAppleToken]
  · cases isRSA
    · simp [VerifyAppleToken]
    · rcases kid? with _ | kid
      · simp [VerifyAppleToken]
      · have h := hget kid
        rcases hg : GetApplePublicKey env now kid cache with ⟨res, cache', cnt⟩
        rw [hg] at h
        simp only at h
        rcases res with e | k
        · simpa [VerifyAppleToken, hg] using h
        · by_cases hsig : signer = some k
          · by_cases hc : claims = true
            · simpa [VerifyAppleToken, hg, hsig, hc] using h
            · simpa [VerifyAppleToken, hg, hsig, hc] using h
          · simpa [VerifyAppleToken, hg, hsig] using h

theorem slowPathLocked_stale_ok (env : FetchEnv) (now : Nat) (kid : String)
    (cache : KeyCache) (newKeys : List (String × RSAPublicKey))
    (hstale : cacheValid cache now = false)
    (hok : FetchApplePublicKeys env = Except.ok newKeys) :
    (slowPathLocked env now kid cache).2 =
      ({ keys := newKeys, fetchTime := now }, 1) := by
  cases h : lookupKey newKeys kid <;>
    simp [slowPathLocked, hstale, hok, h]

theorem slowPathLocked_fresh_snd (env : FetchEnv) (now : Nat) (kid : String)
    (cache : KeyCache) (hvalid : cacheValid cache now = true) :
    (slowPathLocked env now kid cache).2 = (cache, 0) := by
  cases h : lookupKey cache.keys kid <;>
    simp [slowPathLocked, hvalid, h]

theorem runSlowPathCallers_all_fresh (env : FetchEnv)
    (callers : List (Nat × String)) (cache : KeyCache)
    (h : ∀ p ∈ callers, cacheValid cache p.1 = true) :
    runSlowPathCallers env callers cache = (cache, 0) := by
  induction callers with
  | nil => rfl
  | cons p rest ih =>
    obtain ⟨now, kid⟩ := p
    have h1 : cacheValid cache now = true := h _ (List.mem_cons_self _ _)
    have h2 := slowPathLocked_fresh_snd env now kid cache h1
    have ha : (slowPathLocked env now kid cache).2.1 = cache := by rw [h2]
    have hb : (slowPathLocked env now kid cache).2.2 = 0 := by rw [h2]
    have ih2 := ih (fun q hq => h q (List.mem_cons_of_mem _ hq))
    simp [runSlowPathCallers, ha, hb, ih2]

/-- C9: when N callers have all observed a stale or absent cache and entered
the slow path, the double check of staleness under the exclusive lock makes
exactly one of them perform the network fetch: the first lock holder (for
whom the cache is still stale) refreshes once, and — the refresh having
succeeded at a non-zero time — every later lock acquirer whose acquisition
time is still within the TTL window observes the now-fresh state and skips
the fetch, so the total fetch count over all N callers is 1, not N, and the
final cache is the single installed refresh result. -/
theorem concurrent_slow_path_single_fetch (env : FetchEnv) (firstNow : Nat)
    (firstKid : String) (rest : List (Nat × String)) (cache : KeyCache)
    (newKeys : List (String × RSAPublicKey))
    (hstale : cacheValid cache firstNow = false)
    (hok : FetchApplePublicKeys env = Except.ok newKeys)
    (hnz : firstNow ≠ 0)
    (hwin : ∀ p ∈ rest, p.1 - firstNow < KeyCacheTTL) :
    runSlowPathCallers env ((firstNow, firstKid) :: rest) cache =
      ({ keys := newKeys, fetchTime := firstNow }, 1) := by
  have h1 := slowPathLocked_stale_ok env firstNow firstKid cache newKeys
    hstale hok
  have ha : (slowPathLocked env firstNow firstKid cache).2.1 =
      { keys := newKeys, fetchTime := firstNow } := by rw [h1]
  have hb : (slowPathLocked env firstNow firstKid cache).2.2 = 1 := by rw [h1]
  have hfresh : ∀ p ∈ rest,
      cacheValid { keys := newKeys, fetchTime := firstNow } p.1 = true := by
    intro p hp
    simp [cacheValid, hnz, hwin p hp]
  have h2 := runSlowPathCallers_all_fresh env rest _ hfresh
  simp [runSlowPathCallers, ha, hb, h2]

theorem concurrent_slow_path_single_fetch_witness :
    runSlowPathCallers
        ⟨true, DoOutcome.doOk 200 (BodyOutcome.parsed
          [⟨true, some "kid1", "RSA", some (RawKey.rsa ⟨221, 17⟩)⟩])⟩
        [(100, "kid1"), (100, "kid1"), (101, "kid1")] ⟨[], 0⟩ =
      (⟨[("kid1", ⟨221, 17⟩)], 100⟩, 1) :=
  concurrent_slow_path_single_fetch
    ⟨true, DoOutcome.doOk 200 (BodyOutcome.parsed
      [⟨true, some "kid1", "RSA", some (RawKey.rsa ⟨221, 17⟩)⟩])⟩
    100 "kid1" [(100, "kid1"), (101, "kid1")] ⟨[], 0⟩
    [("kid1", ⟨221, 17⟩)]
    (by decide) (by decide) (by decide) (by decide)
